import Mathlib

/-!
Verification of the Gmail-Automation repository
(`gmail_client.py` and `email_agents.py`).

The Python code is shallowly embedded: every function below is a direct
translation of the corresponding source function.  External effects
(the Gmail service, the CrewAI kickoff calls, the captured stdout text)
are passed in explicitly as values describing the outcome of each
external call, so the control flow and the string processing of the
source are modelled exactly.
-/

/-! ## Python string primitives used by the source -/

/-- Whitespace characters stripped by Python `str.strip()` (ASCII range). -/
def pyIsSpace (c : Char) : Bool :=
  c = ' ' || c = '\t' || c = '\n' || c = '\r' || c = '\x0b' || c = '\x0c'

/-- Drop trailing characters satisfying `p` (the right-hand side of `str.strip`). -/
def dropEndWhile (p : Char → Bool) : List Char → List Char
  | [] => []
  | c :: cs =>
    let r := dropEndWhile p cs
    if r = [] && p c then [] else c :: r

/-- Model of Python `s.strip()`: remove leading and trailing whitespace. -/
def pyStrip (s : String) : String :=
  ⟨dropEndWhile pyIsSpace (s.data.dropWhile pyIsSpace)⟩

/-- Model of Python `s.lower()` (ASCII case folding, which is all the
source's sentinel comparison needs). -/
def pyLower (s : String) : String :=
  ⟨s.data.map Char.toLower⟩

/-- Does `a` occur at the start of `b`? -/
def seqPre : List Char → List Char → Bool
  | [], _ => true
  | _ :: _, [] => false
  | a :: as, b :: bs => a == b && seqPre as bs

/-- Does `nd` occur as a contiguous subsequence of the second list? -/
def seqIn (nd : List Char) : List Char → Bool
  | [] => nd.isEmpty
  | c :: cs => seqPre nd (c :: cs) || seqIn nd cs

/-- Model of the Python substring test `needle in hay`. -/
def pyIn (needle hay : String) : Bool :=
  seqIn needle.data hay.data

/-- Characters of `hay` before the first occurrence of `nd`. -/
def takeUntil (nd : List Char) : List Char → List Char
  | [] => []
  | c :: cs => if seqPre nd (c :: cs) then [] else c :: takeUntil nd cs

/-- Model of Python `s.split(m)[0]` for a non-empty separator `m`:
the prefix of `s` before the first occurrence of `m`. -/
def pySplitHead (s m : String) : String :=
  ⟨takeUntil m.data s.data⟩

/-- Model of `BeautifulSoup(html, "html.parser").get_text(...)` as used by
`read_message`: the text of the HTML with every `<...>` tag removed.
The Boolean argument records whether the scanner is inside a tag. -/
def stripTags : Bool → List Char → List Char
  | _, [] => []
  | true, c :: cs => if c = '>' then stripTags false cs else stripTags true cs
  | false, c :: cs => if c = '<' then stripTags true cs else c :: stripTags false cs

/-- Tag-stripped text of an HTML string. -/
def htmlGetText (s : String) : String :=
  ⟨stripTags false s.data⟩

/-! ## Data model of `gmail_client.read_message`

A fetched Gmail payload is a tree of MIME parts.  `data` holds the
decoded text of a part: `none` models an absent (or falsy) `body.data`
field, `some s` models a present `data` field whose base64url decoding,
read as UTF-8 with errors ignored, is `s`. -/

/-- One `{name, value}` entry of `payload["headers"]`. -/
structure MailHeader where
  name : String
  value : String
deriving DecidableEq

/-- A MIME part: its `mimeType`, its decoded `body.data` (if any) and
its nested `parts` (an empty list models a part without sub-parts). -/
inductive MimePart : Type where
  | mk (mimeType : String) (data : Option String) (parts : List MimePart)

/-- The `payload` object of a fetched message: headers, its top-level
`mimeType`, its own decoded `body.data`, and `parts` when the key
`"parts"` is present. -/
structure Payload where
  headers : List MailHeader
  mimeType : String
  data : Option String
  parts : Option (List MimePart)

/-- The normalized message record returned by `read_message`. -/
structure Message where
  sender : String
  subject : String
  body : String
  body_html : String
deriving DecidableEq

/-- Model of `next((h["value"] for h in headers if h["name"] == nm), dflt)`. -/
def headerValue (headers : List MailHeader) (nm dflt : String) : String :=
  match headers.find? (fun h => h.name == nm) with
  | some h => h.value
  | none => dflt

/-! Direct translation of the nested `extract_parts` of `read_message`:
walk the parts depth-first; a part's own data is appended to the
accumulated `(body, body_html)` pair (plain text to the first component,
HTML to the second) before its sub-parts are visited.  `extract_part`
is the body of the `for part in parts` loop. -/
mutual
def extract_part : MimePart → String × String → String × String
  | MimePart.mk mt d sub, acc =>
    let acc1 :=
      match d with
      | some s =>
        if mt = "text/plain" then (acc.1 ++ s, acc.2)
        else if mt = "text/html" then (acc.1, acc.2 ++ s)
        else acc
      | none => acc
    extract_parts sub acc1
def extract_parts : List MimePart → String × String → String × String
  | [], acc => acc
  | p :: ps, acc => extract_parts ps (extract_part p acc)
end

/-! Concatenated decoded content of the `text/plain` parts, in the
depth-first order of `extract_parts`. -/
mutual
def partPlain : MimePart → String
  | MimePart.mk mt d sub =>
    (match d with
     | some s => if mt = "text/plain" then s else ""
     | none => "") ++ plainConcat sub
def plainConcat : List MimePart → String
  | [] => ""
  | p :: ps => partPlain p ++ plainConcat ps
end

/-! Concatenated decoded content of the `text/html` parts, in the
depth-first order of `extract_parts`. -/
mutual
def partHtml : MimePart → String
  | MimePart.mk mt d sub =>
    (match d with
     | some s => if mt = "text/html" then s else ""
     | none => "") ++ htmlConcat sub
def htmlConcat : List MimePart → String
  | [] => ""
  | p :: ps => partHtml p ++ htmlConcat ps
end

/-! `noPlain ps` holds when no part of the tree has mimeType `"text/plain"`. -/
mutual
def partNoPlain : MimePart → Bool
  | MimePart.mk mt _ sub => (mt != "text/plain") && noPlain sub
def noPlain : List MimePart → Bool
  | [] => true
  | p :: ps => partNoPlain p && noPlain ps
end

/-! `hasMime mt ps` holds when some part of the tree has mimeType `mt`. -/
mutual
def partHasMime (mt : String) : MimePart → Bool
  | MimePart.mk m _ sub => (m == mt) || hasMime mt sub
def hasMime (mt : String) : List MimePart → Bool
  | [] => false
  | p :: ps => partHasMime mt p || hasMime mt ps
end

/-- Direct translation of `GmailClient.read_message`.  The Gmail fetch
`service.users().messages().get(...).execute()` is abstracted by its
outcome `fetch`: `Except.error e` models the call raising `HttpError e`
(caught by the source, which returns `None`, modelled as `none`), and
`Except.ok payload` models a successful fetch of the given payload. -/
def read_message (fetch : Except String Payload) : Option Message :=
  match fetch with
  | Except.error _ => none
  | Except.ok payload =>
    let sender := headerValue payload.headers "From" "Unknown"
    let subject := headerValue payload.headers "Subject" "No Subject"
    let bh : String × String :=
      match payload.parts with
      | some parts => extract_parts parts ("", "")
      | none =>
        match payload.data with
        | some d => (d, "")
        | none => ("", "")
    let body := if bh.1 = "" ∧ bh.2 ≠ "" then htmlGetText bh.2 else bh.1
    some { sender := sender, subject := subject,
           body := pyStrip body, body_html := pyStrip bh.2 }

/-! ## Model of `gmail_client.create_draft`

`create_draft` builds a `MIMEText(body)` with `to` and `subject`
headers, base64url-encodes it, and submits it through
`drafts().create(...)` — never through `messages().send(...)`.  The
encoded RFC-2822 message is abstracted by its three fields.  The
response of the `execute()` call (the created draft resource, a dict
holding at least `id` and `message`) is passed in as `svc`; the source
prints `draft["id"]` and then executes `return draft`. -/

/-- The headers and body of the message submitted as a draft. -/
structure MimeMessage where
  toAddr : String
  subject : String
  body : String
deriving DecidableEq

/-- A Gmail API call made by the client. -/
inductive ApiCall : Type where
  | draftsCreate (msg : MimeMessage)
  | messagesSend (msg : MimeMessage)
deriving DecidableEq

/-- The draft resource returned by `drafts().create(...).execute()`:
its identifier and its embedded message resource (kept opaque). -/
structure DraftResource where
  id : String
  message : String
deriving DecidableEq

/-- A Python value returned by `create_draft`: either a bare string or
the draft resource object. -/
inductive PyVal : Type where
  | str (s : String)
  | draftObj (d : DraftResource)
deriving DecidableEq

/-- Direct translation of `GmailClient.create_draft`: the list of API
calls it issues and the value it returns. -/
def create_draft (svc : DraftResource) (toAddr subject body : String) :
    List ApiCall × PyVal :=
  ([ApiCall.draftsCreate ⟨toAddr, subject, body⟩], PyVal.draftObj svc)

/-! ## Model of `email_agents.py`

The CrewAI kickoff results are opaque third-party objects probed by
`getattr`; they are modelled by the fields the source probes.  An
`Except.error` kickoff outcome models the call raising (caught by the
orchestrator's top-level `except`). -/

/-- One element of `result.tasks_output`, as probed by the source:
the three optional string attributes tried in order, and `str(·)`. -/
structure CrewTaskOutput where
  output_text : Option String
  raw_output : Option String
  final_output : Option String
  str_repr : String
deriving DecidableEq

/-- A CrewAI kickoff result: `tasks_output` when the attribute exists
(`none` models a result object lacking it), and `str(·)`. -/
structure CrewResult where
  tasks_output : Option (List CrewTaskOutput)
  str_repr : String
deriving DecidableEq

/-- First truthy value of a Python `a or b or c` chain over
optional strings (`None` and `""` are falsy). -/
def firstTruthy : List (Option String) → Option String
  | [] => none
  | none :: rest => firstTruthy rest
  | some s :: rest => if s = "" then firstTruthy rest else some s

/-- The source's `output_value` for one task output:
`getattr(t, "output_text", None) or getattr(t, "raw_output", None)
or getattr(t, "final_output", None) or str(t)`. -/
def extractOutputValue (t : CrewTaskOutput) : String :=
  match firstTruthy [t.output_text, t.raw_output, t.final_output] with
  | some s => s
  | none => t.str_repr

/-- The `decision` variable after the extraction loop: `none` when
`tasks_output` is missing or has fewer than two entries, otherwise the
lower-cased `output_value` of entry `i = 1`. -/
def decisionOf (r : CrewResult) : Option String :=
  match r.tasks_output with
  | some outs =>
    match outs[1]? with
    | some t => some (pyLower (extractOutputValue t))
    | none => none
  | none => none

/-- The branch condition `decision and "no reply" in decision`. -/
def decisionIsNoReply : Option String → Bool
  | some d => if d = "" then false else pyIn "no reply" d
  | none => false

/-- The structured extraction of lines 176–182: when `tasks_output`
exists and is non-empty, the `or`-chain over the first entry's
attributes. -/
def draftStructured (r : CrewResult) : Option String :=
  match r.tasks_output with
  | some (t :: _) => firstTruthy [t.output_text, t.raw_output, t.final_output]
  | _ => none

/-- Lines 185–190: when the structured value is falsy or blank, replace
it by `str(draft_result).strip()`. -/
def draftAfterStr (r : CrewResult) : String :=
  match draftStructured r with
  | some s => if pyStrip s = "" then pyStrip r.str_repr else s
  | none => pyStrip r.str_repr

/-- The draft string before the marker cleanup: the ordered fallback
chain of lines 176–194 of `email_agents.py` — structured task output,
then `str(draft_result).strip()`, then the captured stdout text
(`streamed_output`, already stripped by the source). -/
def draftReplyRaw (r : CrewResult) (streamed_output : String) : String :=
  if pyStrip (draftAfterStr r) = "" ∧ streamed_output ≠ "" then streamed_output
  else draftAfterStr r

/-- The final cleanup of lines 197–198: truncate at the first
occurrence of the debug marker and strip, when the marker occurs. -/
def draftReplyClean (d : String) : String :=
  if pyIn "Type of draft_result:" d then
    pyStrip (pySplitHead d "Type of draft_result:")
  else d

/-- The outcome of every external interaction of one
`run_email_automation` run.  `messages` is what `list_messages(1)`
returns (identifiers), `fetch` the outcome of the Gmail fetch for the
first identifier, `decisionKickoff` and `draftKickoff` the outcomes of
the two `kickoff()` calls, and `streamed` the text printed to the
redirected stdout during the drafting call (`buffer.getvalue()`). -/
structure RunEnv where
  messages : List String
  fetch : Except String Payload
  decisionKickoff : Except String CrewResult
  draftKickoff : Except String CrewResult
  streamed : String

/-- What a run did: the `create_draft` calls it issued, whether each of
the two crews was kicked off, and whether `sys.stdout` equals the
original stdout when the function returns. -/
structure RunResult where
  drafts : List MimeMessage
  decisionCrewRan : Bool
  draftCrewRan : Bool
  stdoutRestored : Bool
deriving DecidableEq

/-- Direct translation of `get_latest_email`: `None` when
`list_messages` returns no messages, otherwise the result of
`read_message` on the first identifier (a `Message` always passes the
`isinstance`/`"body" in msg` validation; `None` does not). -/
def get_latest_email (env : RunEnv) : Option Message :=
  if env.messages = [] then none else read_message env.fetch

/-- The classification result string of a run: the (not yet
lower-cased) `output_value` extracted for task `i = 1` of the decision
crew, when the kickoff succeeded and the entry exists. -/
def classificationOutput (env : RunEnv) : Option String :=
  match env.decisionKickoff with
  | Except.ok r =>
    match r.tasks_output with
    | some outs =>
      match outs[1]? with
      | some t => some (extractOutputValue t)
      | none => none
    | none => none
  | Except.error _ => none

/-- Direct translation of `run_email_automation`.

Control flow of the source: return early when there is no email or the
stripped body is empty; kick off the decision crew (a raising kickoff
is caught at the top level — stdout has not been redirected yet);
return at the no-reply branch; redirect `sys.stdout`, kick off the
draft crew, restore stdout.  A raising draft kickoff jumps straight to
the top-level handler, skipping the restore on line 169 — hence
`stdoutRestored := false` on exactly that path.  Finally `create_draft`
is called iff the cleaned-up draft string is truthy and non-blank. -/
def run_email_automation (env : RunEnv) : RunResult :=
  match get_latest_email env with
  | none => ⟨[], false, false, true⟩
  | some email_data =>
    if pyStrip email_data.body = "" then ⟨[], false, false, true⟩
    else
      match env.decisionKickoff with
      | Except.error _ => ⟨[], true, false, true⟩
      | Except.ok result =>
        if decisionIsNoReply (decisionOf result) then ⟨[], true, false, true⟩
        else
          match env.draftKickoff with
          | Except.error _ => ⟨[], true, true, false⟩
          | Except.ok draft_result =>
            let streamed_output := pyStrip env.streamed
            let draft_reply := draftReplyClean (draftReplyRaw draft_result streamed_output)
            if pyStrip draft_reply ≠ "" then
              ⟨[⟨email_data.sender, "Re: " ++ email_data.subject, draft_reply⟩],
               true, true, true⟩
            else ⟨[], true, true, true⟩

/-! ## Concrete run environments used to instantiate the theorems -/

/-- A single-part plain-text payload from Alice. -/
def payloadHello : Payload :=
  ⟨[⟨"From", "alice@example.com"⟩, ⟨"Subject", "Hello"⟩],
   "text/plain", some "Hello Bob, please answer me.", none⟩

/-- A decision-crew result whose second task output is a no-reply
classification in mixed casing. -/
def crewDecNoReply : CrewResult :=
  ⟨some [⟨some "A summary.", none, none, "A summary."⟩,
         ⟨some "NO rePLy NeeDeD for this.", none, none, ""⟩], "crew"⟩

/-- Run environment for the no-reply scenario. -/
def envC1 : RunEnv :=
  ⟨["m1"], Except.ok payloadHello, Except.ok crewDecNoReply,
   Except.error "unreached", ""⟩

/-- A single-part payload whose sole body is `text/html`. -/
def payloadC2 : Payload :=
  ⟨[], "text/html", some "<b>Hi</b>", none⟩

/-- A multipart tree whose only textual content is one HTML part. -/
def partsC2w : List MimePart :=
  [MimePart.mk "multipart/alternative" none
    [MimePart.mk "text/html" (some "<p>Hi</p>") []]]

/-- A multipart payload built from `partsC2w`. -/
def payloadC2w : Payload :=
  ⟨[⟨"From", "bob@example.com"⟩], "multipart/mixed", none, some partsC2w⟩

/-- A decision-crew result classifying the email as `follow-up`. -/
def crewDecFollowUp : CrewResult :=
  ⟨some [⟨some "A summary.", none, none, ""⟩,
         ⟨some "follow-up", none, none, ""⟩], "crew"⟩

/-- A draft-crew result with a clean structured reply. -/
def crewDraftC3 : CrewResult :=
  ⟨some [⟨some "Dear Bob, thanks.", none, none, ""⟩], "crew"⟩

/-- Run environment in which a draft is created. -/
def envC3 : RunEnv :=
  ⟨["m1"], Except.ok payloadHello, Except.ok crewDecFollowUp,
   Except.ok crewDraftC3, ""⟩

/-- The message `get_latest_email` yields for `payloadHello`. -/
def msgC3 : Message :=
  ⟨"alice@example.com", "Hello", "Hello Bob, please answer me.", ""⟩

/-- A draft-crew result whose structured reply carries the debug marker. -/
def crewDraftC4 : CrewResult :=
  ⟨some [⟨some "hello \nType of draft_result: junk", none, none, ""⟩], "crew"⟩

/-- Run environment in which the drafted reply carries the debug marker. -/
def envC4 : RunEnv :=
  ⟨["m1"], Except.ok payloadHello, Except.ok crewDecFollowUp,
   Except.ok crewDraftC4, ""⟩

/-- Parts with a data-less `text/plain` part beside an HTML part. -/
def partsC5 : List MimePart :=
  [MimePart.mk "text/plain" none [], MimePart.mk "text/html" (some "<b>Hi</b>") []]

/-- A multipart payload built from `partsC5`. -/
def payloadC5 : Payload :=
  ⟨[], "multipart/alternative", none, some partsC5⟩

/-- Parts with non-empty plain content beside an HTML part. -/
def partsC5w : List MimePart :=
  [MimePart.mk "text/plain" (some "Hello ") [],
   MimePart.mk "text/html" (some "<b>Hello</b>") []]

/-- A multipart payload built from `partsC5w`. -/
def payloadC5w : Payload :=
  ⟨[], "multipart/alternative", none, some partsC5w⟩

/-- Run environment in which `list_messages` returns nothing. -/
def envC6 : RunEnv :=
  ⟨[], Except.error "unreached", Except.error "unreached",
   Except.error "unreached", ""⟩

/-- Run environment in which the draft kickoff raises. -/
def envC9 : RunEnv :=
  ⟨["m1"], Except.ok payloadHello, Except.ok crewDecFollowUp,
   Except.error "RateLimitError", ""⟩

/-- The same run with a succeeding draft kickoff, for contrast. -/
def envC9ok : RunEnv :=
  ⟨["m1"], Except.ok payloadHello, Except.ok crewDecFollowUp,
   Except.ok crewDraftC3, ""⟩

/-- A decision-crew result with a single task output, so that the
loop never reaches index 1 and `decision` stays `None`. -/
def crewDecC10 : CrewResult :=
  ⟨some [⟨some "A summary.", none, none, ""⟩], "crew"⟩

/-- Run environment in which no classification decision is extracted. -/
def envC10 : RunEnv :=
  ⟨["m1"], Except.ok payloadHello, Except.ok crewDecC10,
   Except.ok crewDraftC3, ""⟩

/-! ## General lemmas about the string primitives -/

theorem seqPre_map (f : Char → Char) :
    ∀ a b : List Char, seqPre a b = true → seqPre (a.map f) (b.map f) = true := by
  intro a
  induction a with
  | nil => intro b _; simp [seqPre]
  | cons x xs ih =>
    intro b h
    cases b with
    | nil => simp [seqPre] at h
    | cons y ys =>
      simp only [seqPre, Bool.and_eq_true, beq_iff_eq] at h
      simp only [List.map, seqPre, Bool.and_eq_true, beq_iff_eq]
      exact ⟨by rw [h.1], ih ys h.2⟩

theorem seqIn_map (f : Char → Char) (nd : List Char) :
    ∀ l : List Char, seqIn nd l = true → seqIn (nd.map f) (l.map f) = true := by
  intro l
  induction l with
  | nil =>
    intro h
    cases nd with
    | nil => simp [seqIn]
    | cons c cs => simp [seqIn, List.isEmpty] at h
  | cons c cs ih =>
    intro h
    simp only [seqIn, Bool.or_eq_true] at h
    rcases h with h | h
    · exact Or.inl (seqPre_map f nd (c :: cs) h) |> fun h2 => by
        simpa [seqIn, Bool.or_eq_true] using h2
    · have := ih h
      simp only [List.map, seqIn, Bool.or_eq_true]
      exact Or.inr this

theorem seqPre_append (y : List Char) :
    ∀ x l : List Char, seqPre (x ++ y) l = true → seqPre x l = true := by
  intro x
  induction x with
  | nil => intro l _; simp [seqPre]
  | cons a as ih =>
    intro l h
    cases l with
    | nil => simp [seqPre] at h
    | cons b bs =>
      simp only [List.cons_append, seqPre, Bool.and_eq_true] at h
      simp only [seqPre, Bool.and_eq_true]
      exact ⟨h.1, ih bs h.2⟩

theorem seqIn_append (x y : List Char) :
    ∀ l : List Char, seqIn (x ++ y) l = true → seqIn x l = true := by
  intro l
  induction l with
  | nil =>
    intro h
    cases hx : x with
    | nil => simp [seqIn]
    | cons a as => subst hx; simp [seqIn, List.isEmpty] at h
  | cons c cs ih =>
    intro h
    simp only [seqIn, Bool.or_eq_true] at h ⊢
    rcases h with h | h
    · exact Or.inl (seqPre_append y x (c :: cs) h)
    · exact Or.inr (ih h)

theorem seqIn_ne_nil (nd l : List Char) (hnd : nd ≠ []) (h : seqIn nd l = true) :
    l ≠ [] := by
  intro hl
  subst hl
  cases nd with
  | nil => exact hnd rfl
  | cons c cs => simp [seqIn, List.isEmpty] at h

/-! ## Lemmas about `pyStrip` -/

theorem dropWhile_head_false (p : Char → Bool) :
    ∀ (l : List Char) (x : Char) (xs : List Char),
      l.dropWhile p = x :: xs → p x = false := by
  intro l
  induction l with
  | nil => intro x xs h; simp [List.dropWhile] at h
  | cons c cs ih =>
    intro x xs h
    rw [List.dropWhile_cons] at h
    cases hc : p c with
    | true => rw [hc] at h; simp at h; exact ih x xs h
    | false =>
      rw [hc] at h
      simp at h
      rw [← h.1]
      exact hc

theorem dropWhile_twice (p : Char → Bool) (l : List Char) :
    (l.dropWhile p).dropWhile p = l.dropWhile p := by
  cases h : l.dropWhile p with
  | nil => simp
  | cons x xs =>
    have hx := dropWhile_head_false p l x xs h
    rw [List.dropWhile_cons, hx]
    simp

theorem dropEndWhile_idem (p : Char → Bool) :
    ∀ l : List Char, dropEndWhile p (dropEndWhile p l) = dropEndWhile p l := by
  intro l
  induction l with
  | nil => rfl
  | cons c cs ih =>
    simp only [dropEndWhile]
    split
    · rfl
    · next hcond =>
      simp only [dropEndWhile, ih]
      split
      · next hcond2 => exact absurd hcond2 hcond
      · rfl

theorem dropEndWhile_head (p : Char → Bool) (x : Char) (xs : List Char) :
    dropEndWhile p (x :: xs) = [] ∨ ∃ r, dropEndWhile p (x :: xs) = x :: r := by
  simp only [dropEndWhile]
  split
  · exact Or.inl rfl
  · exact Or.inr ⟨dropEndWhile p xs, rfl⟩

theorem dropWhile_dropEndWhile (p : Char → Bool) (l : List Char) :
    (dropEndWhile p (l.dropWhile p)).dropWhile p = dropEndWhile p (l.dropWhile p) := by
  cases ha : l.dropWhile p with
  | nil => simp [dropEndWhile]
  | cons x xs =>
    have hx := dropWhile_head_false p l x xs ha
    rcases dropEndWhile_head p x xs with h | ⟨r, h⟩
    · rw [h]; rfl
    · rw [h, List.dropWhile_cons, hx]
      simp

theorem pyStrip_idem (s : String) : pyStrip (pyStrip s) = pyStrip s := by
  show pyStrip ⟨dropEndWhile pyIsSpace (s.data.dropWhile pyIsSpace)⟩ = _
  unfold pyStrip
  congr 1
  show dropEndWhile pyIsSpace
      ((dropEndWhile pyIsSpace (s.data.dropWhile pyIsSpace)).dropWhile pyIsSpace)
    = dropEndWhile pyIsSpace (s.data.dropWhile pyIsSpace)
  rw [dropWhile_dropEndWhile, dropEndWhile_idem]

/-! ## Lemmas about the draft extraction chain -/

theorem draftAfterStr_stripped_or_nonblank (r : CrewResult) :
    pyStrip (draftAfterStr r) = draftAfterStr r ∨ pyStrip (draftAfterStr r) ≠ "" := by
  cases h : draftStructured r with
  | none =>
    simp only [draftAfterStr, h]
    exact Or.inl (pyStrip_idem r.str_repr)
  | some s =>
    by_cases hs : pyStrip s = ""
    · simp only [draftAfterStr, h, if_pos hs]
      exact Or.inl (pyStrip_idem r.str_repr)
    · simp only [draftAfterStr, h, if_neg hs]
      exact Or.inr hs

theorem draftReplyRaw_stripped_or_nonblank (r : CrewResult) (t : String)
    (ht : pyStrip t = t) :
    pyStrip (draftReplyRaw r t) = draftReplyRaw r t
    ∨ pyStrip (draftReplyRaw r t) ≠ "" := by
  unfold draftReplyRaw
  split
  · exact Or.inl ht
  · exact draftAfterStr_stripped_or_nonblank r

theorem draftReplyClean_stripped_or_nonblank (r : CrewResult) (t : String)
    (ht : pyStrip t = t) :
    pyStrip (draftReplyClean (draftReplyRaw r t)) = draftReplyClean (draftReplyRaw r t)
    ∨ pyStrip (draftReplyClean (draftReplyRaw r t)) ≠ "" := by
  unfold draftReplyClean
  split
  · exact Or.inl (pyStrip_idem _)
  · exact draftReplyRaw_stripped_or_nonblank r t ht

/-- A non-empty final draft string is also non-blank, so the source's
guard `draft_reply and draft_reply.strip()` accepts every non-empty
string the extraction chain can actually produce. -/
theorem draftReply_nonblank (r : CrewResult) (t : String)
    (hne : draftReplyClean (draftReplyRaw r (pyStrip t)) ≠ "") :
    pyStrip (draftReplyClean (draftReplyRaw r (pyStrip t))) ≠ "" := by
  rcases draftReplyClean_stripped_or_nonblank r (pyStrip t) (pyStrip_idem t) with h | h
  · rw [h]; exact hne
  · exact h

/-! ## Characterization of `extract_parts` -/

theorem extract_eq_aux (n : Nat) :
    (∀ p : MimePart, sizeOf p ≤ n → ∀ acc : String × String,
        extract_part p acc = (acc.1 ++ partPlain p, acc.2 ++ partHtml p))
    ∧ (∀ ps : List MimePart, sizeOf ps ≤ n → ∀ acc : String × String,
        extract_parts ps acc = (acc.1 ++ plainConcat ps, acc.2 ++ htmlConcat ps)) := by
  induction n with
  | zero =>
    constructor
    · intro p h; exfalso; cases p; simp at h
    · intro ps h _; exfalso; cases ps <;> simp at h
  | succ n ih =>
    constructor
    · intro p h acc
      cases p with
      | mk mt d sub =>
        have hsub : sizeOf sub ≤ n := by
          simp only [MimePart.mk.sizeOf_spec] at h
          omega
        cases d with
        | none =>
          simp only [extract_part, partPlain, partHtml]
          rw [ih.2 sub hsub]
          simp [String.append_assoc]
        | some s =>
          by_cases hp : mt = "text/plain"
          · simp only [extract_part, partPlain, partHtml, if_pos hp]
            rw [ih.2 sub hsub]
            simp [hp, String.append_assoc]
          · by_cases hh : mt = "text/html"
            · simp only [extract_part, partPlain, partHtml, if_neg hp, if_pos hh]
              rw [ih.2 sub hsub]
              simp [hp, hh, String.append_assoc]
            · simp only [extract_part, partPlain, partHtml, if_neg hp, if_neg hh]
              rw [ih.2 sub hsub]
              simp [hp, hh, String.append_assoc]
    · intro ps h acc
      cases ps with
      | nil => simp [extract_parts, plainConcat, htmlConcat]
      | cons p ps =>
        have hsz : sizeOf p ≤ n ∧ sizeOf ps ≤ n := by
          simp only [List.cons.sizeOf_spec] at h
          omega
        simp only [extract_parts, plainConcat, htmlConcat]
        rw [ih.1 p hsz.1, ih.2 ps hsz.2]
        simp [String.append_assoc]

theorem extract_parts_eq (ps : List MimePart) (acc : String × String) :
    extract_parts ps acc = (acc.1 ++ plainConcat ps, acc.2 ++ htmlConcat ps) :=
  (extract_eq_aux (sizeOf ps)).2 ps (Nat.le_refl _) acc

theorem noPlain_aux (n : Nat) :
    (∀ p : MimePart, sizeOf p ≤ n → partNoPlain p = true → partPlain p = "")
    ∧ (∀ ps : List MimePart, sizeOf ps ≤ n → noPlain ps = true → plainConcat ps = "") := by
  induction n with
  | zero =>
    constructor
    · intro p h; exfalso; cases p; simp at h
    · intro ps h _; exfalso; cases ps <;> simp at h
  | succ n ih =>
    constructor
    · intro p h hnp
      cases p with
      | mk mt d sub =>
        have hsub : sizeOf sub ≤ n := by
          simp only [MimePart.mk.sizeOf_spec] at h
          omega
        simp only [partNoPlain, Bool.and_eq_true, bne_iff_ne] at hnp
        simp only [partPlain, ih.2 sub hsub hnp.2]
        cases d with
        | none => rfl
        | some s => simp [if_neg hnp.1]
    · intro ps h hnp
      cases ps with
      | nil => rfl
      | cons p ps =>
        have hsz : sizeOf p ≤ n ∧ sizeOf ps ≤ n := by
          simp only [List.cons.sizeOf_spec] at h
          omega
        simp only [noPlain, Bool.and_eq_true] at hnp
        simp only [plainConcat, ih.1 p hsz.1 hnp.1, ih.2 ps hsz.2 hnp.2]
        rfl

theorem noPlain_plainConcat (ps : List MimePart) (h : noPlain ps = true) :
    plainConcat ps = "" :=
  (noPlain_aux (sizeOf ps)).2 ps (Nat.le_refl _) h

/-! ## Claim theorems -/

set_option maxRecDepth 40000

/-- Claim C6: for every run in which `list_messages` returns an empty
list, `run_email_automation` terminates without kicking off the
summarization/classification crew or the drafting crew and without
calling `create_draft`. -/
theorem C6_no_messages_noop (env : RunEnv) (h : env.messages = []) :
    (run_email_automation env).drafts = []
    ∧ (run_email_automation env).decisionCrewRan = false
    ∧ (run_email_automation env).draftCrewRan = false := by
  have hle : get_latest_email env = none := by
    simp [get_latest_email, h]
  simp [run_email_automation, hle]

/-- Witness for C6 at a concrete environment with no messages. -/
theorem C6_no_messages_noop_witness :
    (run_email_automation envC6).drafts = []
    ∧ (run_email_automation envC6).decisionCrewRan = false
    ∧ (run_email_automation envC6).draftCrewRan = false :=
  C6_no_messages_noop envC6 rfl

/-- Claim C8: `read_message` returns the normalized `Message` on a
successful fetch and its failure signal `none` exactly when the
underlying fetch fails (raises `HttpError`); it never propagates the
exception. -/
theorem C8_read_message_total (fetch : Except String Payload) :
    read_message fetch = none ↔ ∃ e, fetch = Except.error e := by
  cases fetch with
  | error e => simp [read_message]
  | ok p => simp [read_message]

/-- Witness for C8 at a concrete failing fetch. -/
theorem C8_read_message_total_witness :
    read_message (Except.error "HttpError 404") = none :=
  (C8_read_message_total (Except.error "HttpError 404")).mpr ⟨"HttpError 404", rfl⟩

/-- Counterexample to claim C7 as stated: `create_draft` does not
return the identifier of the created draft; it returns the whole
draft resource object (`return draft`, not `return draft["id"]`). -/
theorem C7_counterexample :
    (create_draft ⟨"r123", "msgres"⟩ "alice@example.com" "Re: Hello" "Hi").2
      = PyVal.draftObj ⟨"r123", "msgres"⟩
    ∧ (create_draft ⟨"r123", "msgres"⟩ "alice@example.com" "Re: Hello" "Hi").2
      ≠ PyVal.str "r123" := by decide

/-- Claim C7 as amended: `create_draft` submits the message once
through the drafts-create endpoint, never through send, and returns
the created draft resource object (which carries the identifier in its
`id` field) rather than the bare identifier. -/
theorem C7_create_draft_returns_resource (svc : DraftResource)
    (toAddr subject body : String) :
    (create_draft svc toAddr subject body).2 = PyVal.draftObj svc
    ∧ (create_draft svc toAddr subject body).1
        = [ApiCall.draftsCreate ⟨toAddr, subject, body⟩]
    ∧ ∀ m : MimeMessage,
        ApiCall.messagesSend m ∉ (create_draft svc toAddr subject body).1 := by
  refine ⟨rfl, rfl, ?_⟩
  intro m hm
  simp [create_draft] at hm

/-- Claim C9 evaluated at the failing input: when the draft kickoff
raises, the exception skips the `sys.stdout = sys_stdout` restore on
line 169 and lands in the top-level handler, so the run ends with
stdout still redirected; on the non-raising path stdout is restored. -/
theorem C9_stdout_not_restored_on_raise :
    (run_email_automation envC9).draftCrewRan = true
    ∧ (run_email_automation envC9).stdoutRestored = false
    ∧ (run_email_automation envC9ok).stdoutRestored = true := by decide

/-- Claim C10: when the classification decision cannot be extracted
(the result lacks `tasks_output`, or fewer than two task outputs exist
so `decision` stays `None`, or the extracted decision is empty), the
orchestrator does not stop at the no-reply branch but proceeds to kick
off the drafting crew. -/
theorem C10_missing_decision_drafts (env : RunEnv) (msg : Message)
    (dcr : CrewResult)
    (hmsg : get_latest_email env = some msg)
    (hbody : pyStrip msg.body ≠ "")
    (hk : env.decisionKickoff = Except.ok dcr)
    (hmiss : decisionOf dcr = none ∨ decisionOf dcr = some "") :
    (run_email_automation env).draftCrewRan = true := by
  have hbr : decisionIsNoReply (decisionOf dcr) ≠ true := by
    rcases hmiss with h | h <;> rw [h] <;> simp [decisionIsNoReply]
  cases hdk : env.draftKickoff with
  | error e =>
    simp [run_email_automation, hmsg, if_neg hbody, hk, if_neg hbr, hdk]
  | ok dres =>
    simp only [run_email_automation, hmsg, if_neg hbody, hk, if_neg hbr, hdk]
    split <;> rfl

/-- Witness for C10 at a concrete environment whose decision crew
returns a single task output. -/
theorem C10_missing_decision_drafts_witness :
    (run_email_automation envC10).draftCrewRan = true :=
  C10_missing_decision_drafts envC10 msgC3 crewDecC10 (by decide) (by decide) rfl
    (Or.inl (by decide))

/-- For a multipart payload with no `text/plain` part anywhere and
non-empty HTML content, `body` is the (stripped) tag-stripped text of
the concatenated HTML; for a single-part payload the decoded data
itself becomes `body` (stripped) without any mimeType check.  This
characterizes the two branches of `read_message` that claim C2 is
about. -/
theorem html_only_multipart_body (payload : Payload) :
    (∀ parts, payload.parts = some parts → noPlain parts = true →
      htmlConcat parts ≠ "" →
      (read_message (Except.ok payload)).map Message.body
        = some (pyStrip (htmlGetText (htmlConcat parts))))
    ∧ (payload.parts = none →
      (read_message (Except.ok payload)).map Message.body
        = some (pyStrip (payload.data.getD ""))) := by
  constructor
  · intro parts hp hnp hh
    have hext : extract_parts parts ("", "") = ("", htmlConcat parts) := by
      rw [extract_parts_eq, noPlain_plainConcat parts hnp]
      simp [String.empty_append]
    simp only [read_message, hp, hext]
    split
    · simp
    · next hcond => exact absurd ⟨by trivial, hh⟩ hcond
  · intro hp
    cases hd : payload.data with
    | none =>
      simp only [read_message, hp, hd]
      split
      · next hcond => exact absurd rfl hcond.2
      · simp
    | some dta =>
      simp only [read_message, hp, hd]
      split
      · next hcond => exact absurd rfl hcond.2
      · simp

/-- Instantiation of `html_only_multipart_body` at a concrete
multipart payload whose only textual part is HTML. -/
theorem html_only_multipart_body_concrete :
    (read_message (Except.ok payloadC2w)).map Message.body
      = some (pyStrip (htmlGetText (htmlConcat partsC2w))) :=
  (html_only_multipart_body payloadC2w).1 partsC2w rfl (by decide) (by decide)

/-- Claim C2 evaluated at the failing input: a single-part payload
whose sole body is `text/html`.  The else-branch of `read_message`
(gmail_client.py lines 106-109) copies the decoded data into `body`
without looking at the payload's mimeType, so the raw HTML ends up in
`body` while `body_html` stays empty — the commented HTML-to-text
fallback of lines 112-114 can then never fire, and `body` is raw HTML
instead of the tag-stripped text the claim requires.  The multipart
route (third conjunct) does produce the tag-stripped text, showing the
single-part branch is the slip. -/
theorem C2_single_part_html_raw :
    read_message (Except.ok payloadC2)
      = some ⟨"Unknown", "No Subject", "<b>Hi</b>", ""⟩
    ∧ (read_message (Except.ok payloadC2)).map Message.body
        ≠ some (htmlGetText "<b>Hi</b>")
    ∧ (read_message (Except.ok payloadC2w)).map Message.body
        = some (htmlGetText "<p>Hi</p>") := by decide

/-- Counterexample to claim C5 as stated: a payload holding both a
`text/plain` part (with no data) and a `text/html` part produces a
`body` taken from the HTML fallback, because the fallback fires
whenever the concatenated plain text is empty — not only when no
plain part exists.  The HTML part therefore contributes to `body`. -/
theorem C5_counterexample :
    hasMime "text/plain" partsC5 = true
    ∧ hasMime "text/html" partsC5 = true
    ∧ pyStrip (plainConcat partsC5) = ""
    ∧ (read_message (Except.ok payloadC5)).map Message.body = some "Hi"
    ∧ (read_message (Except.ok payloadC5)).map Message.body
        ≠ some (pyStrip (plainConcat partsC5)) := by decide

/-- Claim C5 as amended: for a multipart payload holding both plain
and HTML parts, whenever the concatenated `text/plain` content is
non-empty, `body` is exactly that (stripped) depth-first concatenation
and the HTML parts contribute nothing to it. -/
theorem C5_plain_preferred (payload : Payload) (parts : List MimePart)
    (hp : payload.parts = some parts)
    (_hplainpart : hasMime "text/plain" parts = true)
    (_hhtmlpart : hasMime "text/html" parts = true)
    (hne : plainConcat parts ≠ "") :
    (read_message (Except.ok payload)).map Message.body
      = some (pyStrip (plainConcat parts)) := by
  have hext : extract_parts parts ("", "") = (plainConcat parts, htmlConcat parts) := by
    rw [extract_parts_eq]
    simp [String.empty_append]
  simp only [read_message, hp, hext]
  rw [if_neg (fun hc => hne hc.1)]
  simp

/-- Witness for C5 (amended) at a concrete payload with non-empty
plain content beside an HTML part. -/
theorem C5_plain_preferred_witness :
    (read_message (Except.ok payloadC5w)).map Message.body
      = some (pyStrip (plainConcat partsC5w)) :=
  C5_plain_preferred payloadC5w partsC5w rfl (by decide) (by decide) (by decide)

/-- Claim C1: if the classification result string extracted for the
decision task contains `"No Reply Needed"` in any casing (some
substring of it lower-cases to the sentinel), the run terminates at
the no-reply branch: the drafting crew is never kicked off and
`create_draft` is never called. -/
theorem C1_no_reply_skips_draft (env : RunEnv) (s : String)
    (hs : classificationOutput env = some s)
    (hc : ∃ t, pyIn t s = true ∧ pyLower t = "no reply needed") :
    (run_email_automation env).drafts = []
    ∧ (run_email_automation env).draftCrewRan = false := by
  obtain ⟨t, hin, hlow⟩ := hc
  cases hk : env.decisionKickoff with
  | error e =>
    simp only [classificationOutput, hk] at hs
    exact Option.noConfusion hs
  | ok r =>
    have hd : decisionOf r = some (pyLower s) := by
      simp only [classificationOutput, hk] at hs
      cases hto : r.tasks_output with
      | none => simp only [hto] at hs; exact Option.noConfusion hs
      | some outs =>
        simp only [hto] at hs
        cases hidx : outs[1]? with
        | none => simp only [hidx] at hs; exact Option.noConfusion hs
        | some t1 =>
          simp only [hidx, Option.some_inj] at hs
          simp only [decisionOf, hto, hidx, hs]
    have hsent : pyIn "no reply needed" (pyLower s) = true := by
      have h2 := seqIn_map Char.toLower t.data s.data hin
      have h3 : t.data.map Char.toLower = "no reply needed".data :=
        congrArg String.data hlow
      rw [h3] at h2
      exact h2
    have hnr : pyIn "no reply" (pyLower s) = true := by
      have happ : "no reply".data ++ " needed".data = "no reply needed".data := by
        decide
      refine seqIn_append "no reply".data " needed".data (pyLower s).data ?_
      rw [happ]
      exact hsent
    have hne : pyLower s ≠ "" := by
      intro h0
      have hd2 := seqIn_ne_nil "no reply needed".data (pyLower s).data
        (by decide) hsent
      exact hd2 (by rw [h0])
    have hbr : decisionIsNoReply (decisionOf r) = true := by
      rw [hd]
      simp only [decisionIsNoReply, if_neg hne]
      exact hnr
    cases hle : get_latest_email env with
    | none => constructor <;> simp [run_email_automation, hle]
    | some msg =>
      by_cases hb : pyStrip msg.body = ""
      · constructor <;> simp [run_email_automation, hle, hb]
      · have hrun : run_email_automation env = ⟨[], true, false, true⟩ := by
          simp [run_email_automation, hle, if_neg hb, hk, hbr]
        rw [hrun]
        exact ⟨rfl, rfl⟩

/-- Witness for C1 at a concrete run whose classification output is
`"NO rePLy NeeDeD for this."`. -/
theorem C1_no_reply_skips_draft_witness :
    (run_email_automation envC1).drafts = []
    ∧ (run_email_automation envC1).draftCrewRan = false :=
  C1_no_reply_skips_draft envC1 "NO rePLy NeeDeD for this." (by decide)
    ⟨"NO rePLy NeeDeD", by decide, by decide⟩

/-- Claim C3: whenever the run reaches the drafting step and the
cleaned-up draft string `d` is non-empty, `create_draft` is called
exactly once, with `to` equal to the original sender unchanged,
`subject` equal to `"Re: "` concatenated with the original subject
unchanged, and `body` equal to `d`. -/
theorem C3_draft_headers (env : RunEnv) (msg : Message)
    (dcr dres : CrewResult) (d : String)
    (hmsg : get_latest_email env = some msg)
    (hbody : pyStrip msg.body ≠ "")
    (hk : env.decisionKickoff = Except.ok dcr)
    (hno : decisionIsNoReply (decisionOf dcr) = false)
    (hdk : env.draftKickoff = Except.ok dres)
    (hd : draftReplyClean (draftReplyRaw dres (pyStrip env.streamed)) = d)
    (hne : d ≠ "") :
    (run_email_automation env).drafts
      = [⟨msg.sender, "Re: " ++ msg.subject, d⟩] := by
  have hno2 : decisionIsNoReply (decisionOf dcr) ≠ true := by
    rw [hno]; exact Bool.false_ne_true
  have hnb : pyStrip d ≠ "" := by
    rw [← hd]
    rw [← hd] at hne
    exact draftReply_nonblank dres env.streamed hne
  simp only [run_email_automation, hmsg, if_neg hbody, hk, if_neg hno2, hdk, hd,
    if_pos hnb]

/-- Witness for C3 at a concrete run that drafts a reply. -/
theorem C3_draft_headers_witness :
    (run_email_automation envC3).drafts
      = [⟨msgC3.sender, "Re: " ++ msgC3.subject, "Dear Bob, thanks."⟩] :=
  C3_draft_headers envC3 msgC3 crewDecFollowUp crewDraftC3 "Dear Bob, thanks."
    (by decide) (by decide) rfl (by decide) rfl (by decide) (by decide)

/-- Counterexample to claim C4 as stated: the source truncates the
draft string at the first occurrence of the marker and then also
strips surrounding whitespace (`.split(...)[0].strip()`), so the body
passed to `create_draft` is `"hello"`, not the bare truncation
`"hello \n"`. -/
theorem C4_counterexample :
    (run_email_automation envC4).drafts.map MimeMessage.body = ["hello"]
    ∧ pySplitHead "hello \nType of draft_result: junk" "Type of draft_result:"
        = "hello \n"
    ∧ ("hello" : String) ≠ "hello \n" := by decide

/-- Claim C4 as amended: when the extracted draft string `d` contains
the marker `"Type of draft_result:"`, every body passed to
`create_draft` equals `d` truncated at the first occurrence of the
marker and then stripped of surrounding whitespace; when `d` does not
contain the marker, the body passed is `d` unchanged. -/
theorem C4_marker_truncation (env : RunEnv) (dres : CrewResult)
    (d : String) (m : MimeMessage)
    (hdk : env.draftKickoff = Except.ok dres)
    (hd : draftReplyRaw dres (pyStrip env.streamed) = d)
    (hmem : m ∈ (run_email_automation env).drafts) :
    (pyIn "Type of draft_result:" d = true →
        m.body = pyStrip (pySplitHead d "Type of draft_result:"))
    ∧ (pyIn "Type of draft_result:" d = false → m.body = d) := by
  have hbody : m.body = draftReplyClean d := by
    cases hle : get_latest_email env with
    | none => simp [run_email_automation, hle] at hmem
    | some msg =>
      by_cases hb : pyStrip msg.body = ""
      · simp [run_email_automation, hle, hb] at hmem
      · cases hk : env.decisionKickoff with
        | error e => simp [run_email_automation, hle, if_neg hb, hk] at hmem
        | ok dcr =>
          by_cases hno : decisionIsNoReply (decisionOf dcr) = true
          · simp [run_email_automation, hle, if_neg hb, hk, hno] at hmem
          · by_cases hfin : pyStrip (draftReplyClean d) = ""
            · have hfin2 : ¬ pyStrip (draftReplyClean d) ≠ "" := fun hq => hq hfin
              simp [run_email_automation, hle, if_neg hb, hk, if_neg hno, hdk,
                hd, if_neg hfin2] at hmem
            · simp only [run_email_automation, hle, if_neg hb, hk, if_neg hno,
                hdk, hd, if_pos hfin] at hmem
              rw [List.mem_singleton] at hmem
              rw [hmem]
  constructor
  · intro hmk
    rw [hbody, draftReplyClean, if_pos hmk]
  · intro hmk
    rw [hbody, draftReplyClean, if_neg (by rw [hmk]; exact Bool.false_ne_true)]

/-- Witness for C4 (amended) at the concrete marker-carrying run. -/
theorem C4_marker_truncation_witness :
    (⟨"alice@example.com", "Re: Hello", "hello"⟩ : MimeMessage).body
      = pyStrip (pySplitHead "hello \nType of draft_result: junk"
          "Type of draft_result:") :=
  (C4_marker_truncation envC4 crewDraftC4 "hello \nType of draft_result: junk"
    ⟨"alice@example.com", "Re: Hello", "hello"⟩ rfl (by decide) (by decide)).1
    (by decide)
